import Mathlib

/-!
# Verification of the financial-structuring pipeline

Shallow embedding of the extraction–normalization–aggregation pipeline:

* `app/pipeline/extractor.py` — `ai_extract`, `fallback_extract`, `extract_data`
* `app/pipeline/aggregator.py` — `merge_data`, `merge_data_detailed`,
  `_flatten_records`, `_normalize_record`, `_safe_float`
* `app/utils/csv_converter.py` — `create_csv`

Dynamic Python values are embedded as the inductive `PyVal`; Python `dict`s
are insertion-ordered association lists with unique keys (`PyDict`); Python
`float` is modelled exactly as `ℚ` (every Python float is a finite binary
rational; the claims only exercise finite decimal values).  The external
model-service call inside `ai_extract` (network + JSON scrape) is an effect:
its outcome is passed in as `Option PyDict`, where `none` covers every
failure path (exception, timeout, no parseable JSON object) and `some d`
a successfully parsed JSON object.  `uuid.uuid4()` is modelled as an
injective fresh-token supply threaded as a `Nat` counter, per the spec's
contract that the identifier generator is any collision-resistant unique
token source invoked once per record.  `debug_log` calls are pure no-ops
with respect to the returned data and are not modelled.
-/

/-- Embedded Python value. `pfloat` carries the exact rational value of the
Python float; `pdict` is an insertion-ordered association list. -/
inductive PyVal where
  | pstr (s : String)
  | pint (n : Int)
  | pfloat (q : ℚ)
  | pnone
  | plist (xs : List PyVal)
  | pdict (d : List (String × PyVal))

/-- A Python dict: insertion-ordered association list (keys unique). -/
abbrev PyDict := List (String × PyVal)

/-- `d.get(k)`: first binding of `k` in the dict. -/
def dictGet (d : PyDict) (k : String) : Option PyVal :=
  match d.find? (fun p => p.1 = k) with
  | some p => some p.2
  | Option.none => Option.none

/-- `d[k] = v`: update the binding in place if present, else append. -/
def dictSet (d : PyDict) (k : String) (v : PyVal) : PyDict :=
  if d.any (fun p => p.1 = k) then
    d.map (fun p => if p.1 = k then (k, v) else p)
  else
    d ++ [(k, v)]

/-- Digits of a numeral string as a natural number (`"123"` ↦ `123`). -/
def digitsToNat (cs : List Char) : Nat :=
  cs.foldl (fun a c => a * 10 + (c.toNat - 48)) 0

/-- One fractional decimal digit at a time (long division of `rem/den`), for
rendering `ℚ` as Python renders a float.  `fuel` bounds the expansion (Python
float repr never needs more than 17 significant digits). -/
def fracDigits : Nat → Nat → Nat → String
  | _, _, 0 => ""
  | rem, den, Nat.succ fuel =>
    if rem = 0 then "" else
      let r10 := rem * 10
      toString (r10 / den) ++ fracDigits (r10 % den) den fuel

/-- Model of Python's `str`/`repr` of a float: sign, integer part, a dot,
then the fractional digits (at least the digit `0`, as in
`str(5000.0) = "5000.0"`). -/
def qRepr (q : ℚ) : String :=
  let sign := if q.num < 0 then "-" else ""
  let na := q.num.natAbs
  let ip := na / q.den
  let rem := na % q.den
  let frac := if rem = 0 then "0" else fracDigits rem q.den 17
  sign ++ toString ip ++ "." ++ frac

mutual

/-- Model of Python `repr(v)` (string quoting approximated without escapes). -/
def pyRepr : PyVal → String
  | PyVal.pstr s => "'" ++ s ++ "'"
  | PyVal.pint n => toString n
  | PyVal.pfloat q => qRepr q
  | PyVal.pnone => "None"
  | PyVal.plist xs => "[" ++ ", ".intercalate (pyReprList xs) ++ "]"
  | PyVal.pdict d => "\x7b" ++ ", ".intercalate (pyReprDict d) ++ "\x7d"

def pyReprList : List PyVal → List String
  | [] => []
  | v :: vs => pyRepr v :: pyReprList vs

def pyReprDict : List (String × PyVal) → List String
  | [] => []
  | (k, v) :: ps => ("'" ++ k ++ "': " ++ pyRepr v) :: pyReprDict ps

end

/-- Model of Python `str(v)`: identity on strings, `repr` on containers. -/
def pyStr : PyVal → String
  | PyVal.pstr s => s
  | v => pyRepr v

/-- The characters Python `str.strip()` removes (ASCII whitespace). -/
def isPySpace (c : Char) : Bool :=
  c = ' ' ∨ c = '\t' ∨ c = '\n' ∨ c = '\r' ∨ c = '\x0b' ∨ c = '\x0c'

/-- Model of Python `s.strip()`: drop whitespace from both ends. -/
def pyStrip (s : String) : String :=
  String.mk (((s.data.dropWhile isPySpace).reverse.dropWhile isPySpace).reverse)

/-- Model of Python `str.lower()` on one character (ASCII case folding; the
placeholder comparisons only involve ASCII). -/
def pyLowerChar (c : Char) : Char :=
  if 'A' ≤ c ∧ c ≤ 'Z' then Char.ofNat (c.toNat + 32) else c

/-- Model of Python `s.lower()`. -/
def pyLower (s : String) : String :=
  String.mk (s.data.map pyLowerChar)

/-! ## Python `float(...)` coercion (`_safe_float`) -/

/-- Model of Python `float(str)` on a sign-stripped body: digits, optional
`.` + digits, optional exponent.  Returns `none` exactly when Python raises
`ValueError` (no digit in the mantissa, stray characters, empty exponent).
`inf`/`nan` literals and digit underscores are outside the model. -/
def parseUnsigned (cs : List Char) : Option ℚ :=
  let ipSpan := cs.span Char.isDigit
  let ip := ipSpan.1
  let afterInt := ipSpan.2
  let fracState : Option (List Char) × List Char :=
    match afterInt with
    | '.' :: t =>
      let fSpan := t.span Char.isDigit
      (some fSpan.1, fSpan.2)
    | _ => (Option.none, afterInt)
  let fracPart := fracState.1
  let afterFrac := fracState.2
  if ip = [] ∧ (fracPart = Option.none ∨ fracPart = some []) then
    Option.none
  else
    let mantissa : ℚ :=
      (digitsToNat ip : ℚ) +
        (match fracPart with
         | some fp => (digitsToNat fp : ℚ) / ((10 : ℚ) ^ fp.length)
         | Option.none => 0)
    match afterFrac with
    | [] => some mantissa
    | e :: t =>
      if e = 'e' ∨ e = 'E' then
        let signState : Int × List Char :=
          match t with
          | '+' :: u => (1, u)
          | '-' :: u => (-1, u)
          | u => (1, u)
        let eSpan := signState.2.span Char.isDigit
        if eSpan.1 = [] ∨ eSpan.2 ≠ [] then Option.none
        else some (mantissa * (10 : ℚ) ^ (signState.1 * digitsToNat eSpan.1))
      else Option.none

/-- Model of Python `float(s)` for a string: strip surrounding whitespace,
optional sign, then `parseUnsigned`. -/
def parsePyFloat (s : String) : Option ℚ :=
  match (pyStrip s).data with
  | '+' :: rest => parseUnsigned rest
  | '-' :: rest => (parseUnsigned rest).map (fun q => -q)
  | rest => parseUnsigned rest

/-- `_safe_float` (aggregator.py) on its non-raising inputs: ints and floats
pass through `float(...)`; strings go through the `float(str)` parse; every
other type makes `float(...)` raise `TypeError`, caught and collapsed to
`0.0`.  This total projection is NOT the whole story: on the int branch
Python's `float(value)` raises `OverflowError` for magnitudes at least
`2^1024 - 2^970`, which the `except (TypeError, ValueError)` clause does not
catch — that uncaught error path is modelled faithfully by
`safeFloatChecked` below. -/
def safeFloat : PyVal → ℚ
  | PyVal.pint n => (n : ℚ)
  | PyVal.pfloat q => q
  | PyVal.pstr s => (parsePyFloat s).getD 0
  | _ => 0

/-- The least magnitude at which Python `float(int)` overflows: the
conversion rounds to the nearest double, and every integer of absolute value
at least `2^1024 - 2^970` rounds past the largest finite double
(`2^1024 - 2^971`) to infinity, raising `OverflowError`. -/
def pyFloatOverflowBound : Nat :=
  179769313486231580793728971405303415079934132710037826936173778980444968292764750946649017977587207096330286416692887910946555547851940402630657488671505820681908902000708383676273854845817711531764475730270069855571366959622842914819860834936475292719074168444365510704342711559699508093042880177904174497792

/-- The failing input of C4: the integer `2**1024`, written in decimal (a
JSON model response can hand `_safe_float` an arbitrarily large int).  Its
magnitude is past `pyFloatOverflowBound`, so Python raises `OverflowError`
on `float(...)`. -/
def overflowInputInt : Int :=
  179769313486231590772930519078902473361797697894230657273430081157732675805500963132708477322407536021120113879871393357658789768814416622492847430639474124377767893424865485276302219601246094119453082952085005768838150682342462881473913110540827237163350510684586298239947245938479716304835356329624224137216

/-- Faithful fallible model of `_safe_float`: `none` is the `OverflowError`
escaping from `float(int)` uncaught (the `except` clause names only
`TypeError` and `ValueError`); every caught failure collapses to `0.0` as in
the source. -/
def safeFloatChecked : PyVal → Option ℚ
  | PyVal.pint n =>
    if n.natAbs < pyFloatOverflowBound then some ((n : ℚ)) else Option.none
  | PyVal.pfloat q => some q
  | PyVal.pstr s => some ((parsePyFloat s).getD 0)
  | _ => some 0

/-! ## Field Extractor (`extractor.py`) -/

/-- Model of Python `s.split('.')` on the character list: split at every
`'.'`, keeping empty segments (`"".split('.') == [""]`,
`".".split('.') == ["", ""]`). -/
def pySplitDot : List Char → List (List Char)
  | [] => [[]]
  | c :: rest =>
    if c = '.' then [] :: pySplitDot rest
    else
      match pySplitDot rest with
      | [] => [[c]]
      | p :: ps => (c :: p) :: ps

/-- `fallback_extract(content, filename)`: the deterministic minimal record
built from the filename alone.  `filename.split('.')[0] if filename else ""`
and `filename or ""` are the two Python truthiness guards on the name. -/
def fallback_extract (content : String) (filename : String) : PyDict :=
  let base_name :=
    if filename ≠ "" then String.mk ((pySplitDot filename.data).headD []) else ""
  [("date", PyVal.pstr ""),
   ("vendor", PyVal.pstr base_name),
   ("amount", PyVal.pint 0),
   ("tax", PyVal.pint 0),
   ("source", PyVal.pstr (if filename ≠ "" then filename else ""))]

/-- `extract_data(filename, content)`.  The outcome of `ai_extract(content)`
(network call, JSON scrape, `json.loads`) is an external effect passed in as
`aiResult : Option PyDict`; `none` is every failure path.  The Python guard
is `if ai_result:` — dict truthiness — so an empty parsed dict also falls
back. -/
def extract_data (filename : String) (content : String)
    (aiResult : Option PyDict) : PyDict :=
  match aiResult with
  | some d =>
    if d.isEmpty then fallback_extract content filename
    else dictSet d "source" (PyVal.pstr filename)
  | Option.none => fallback_extract content filename

/-- Spec-side reading of "the document name with its extension removed (text
before the first `.`, or the whole name if no `.` is present)". -/
def specStem (filename : String) : String :=
  String.mk (filename.data.takeWhile (fun c => !decide (c = '.')))

/-! ## Aggregator (`aggregator.py`) -/

/-- Canonical schema column order (`CANONICAL_COLUMNS`). -/
def CANONICAL_COLUMNS : List String :=
  ["date", "vendor", "amount", "tax", "source", "record_id"]

/-- The normalized, immutable output unit (spec §3 CanonicalRecord): exactly
the six canonical fields. -/
structure CanonicalRecord where
  date : String
  vendor : String
  amount : ℚ
  tax : ℚ
  source : String
  record_id : String
deriving DecidableEq

/-- Model of `str(uuid.uuid4())`: an injective supply of fresh tokens indexed
by a global call counter.  The spec's contract for the generator is only
collision-resistant global uniqueness ("any collision-resistant unique-ID
generator invoked once per record"), which injectivity captures. -/
def uuidString (n : Nat) : String :=
  "uuid-" ++ String.mk (List.replicate n '*')

/-- `_flatten_records(results)`: dict items are kept, list items contribute
their dict elements in order, everything else is dropped. -/
def _flatten_records : List PyVal → List PyDict
  | [] => []
  | PyVal.pdict d :: rest => d :: _flatten_records rest
  | PyVal.plist xs :: rest =>
    (xs.filterMap fun v =>
      match v with
      | PyVal.pdict d => some d
      | _ => Option.none) ++ _flatten_records rest
  | _ :: rest => _flatten_records rest

/-- The placeholder test of `_normalize_record`:
`raw is None or str(raw).strip().lower() in ("", "unknown", "n/a")`. -/
def isAbsent (v : PyVal) : Bool :=
  match v with
  | PyVal.pnone => true
  | _ => pyLower (pyStrip (pyStr v)) ∈ ["", "unknown", "n/a"]

/-- `_normalize_record(record)` with the uuid call counter passed explicitly:
collapse placeholder `date`/`vendor` to `""`, stringify, coerce `amount`/`tax`
via `_safe_float`, stringify `source`, attach a fresh token. -/
def _normalize_record (record : PyDict) (fresh : Nat) : CanonicalRecord :=
  let raw_date0 := (dictGet record "date").getD (PyVal.pstr "")
  let raw_date := if isAbsent raw_date0 then PyVal.pstr "" else raw_date0
  let raw_vendor0 := (dictGet record "vendor").getD (PyVal.pstr "")
  let raw_vendor := if isAbsent raw_vendor0 then PyVal.pstr "" else raw_vendor0
  { date := pyStr raw_date
    vendor := pyStr raw_vendor
    amount := safeFloat ((dictGet record "amount").getD (PyVal.pint 0))
    tax := safeFloat ((dictGet record "tax").getD (PyVal.pint 0))
    source := pyStr ((dictGet record "source").getD (PyVal.pstr ""))
    record_id := uuidString fresh }

/-- `_normalize_record` with the uncaught `OverflowError` of `_safe_float`
propagated to the caller: `none` when a numeric field makes `float(int)`
overflow, otherwise exactly the record `_normalize_record` builds. -/
def normalizeRecordChecked (record : PyDict) (fresh : Nat) :
    Option CanonicalRecord :=
  let raw_date0 := (dictGet record "date").getD (PyVal.pstr "")
  let raw_date := if isAbsent raw_date0 then PyVal.pstr "" else raw_date0
  let raw_vendor0 := (dictGet record "vendor").getD (PyVal.pstr "")
  let raw_vendor := if isAbsent raw_vendor0 then PyVal.pstr "" else raw_vendor0
  match safeFloatChecked ((dictGet record "amount").getD (PyVal.pint 0)),
        safeFloatChecked ((dictGet record "tax").getD (PyVal.pint 0)) with
  | some amount, some tax =>
    some { date := pyStr raw_date
           vendor := pyStr raw_vendor
           amount := amount
           tax := tax
           source := pyStr ((dictGet record "source").getD (PyVal.pstr ""))
           record_id := uuidString fresh }
  | _, _ => Option.none

/-- The list comprehension `[_normalize_record(r) for r in records]`, with the
uuid counter threaded left to right; returns the records and the next counter
value. -/
def normalizeAll : List PyDict → Nat → List CanonicalRecord × Nat
  | [], n => ([], n)
  | r :: rs, n =>
    let rest := normalizeAll rs (n + 1)
    (_normalize_record r n :: rest.1, rest.2)

/-- `merge_data(extraction_results)`: flatten, then normalize each record.
The `debug_log` calls and the logged running total are effect-free with
respect to the returned list and are not modelled. -/
def merge_data (extraction_results : List PyVal) (fresh : Nat) :
    List CanonicalRecord × Nat :=
  normalizeAll (_flatten_records extraction_results) fresh

/-- `AggregationResult` dataclass. -/
structure AggregationResult where
  records : List CanonicalRecord
  total_amount : ℚ
  total_tax : ℚ
  document_count : Nat
deriving DecidableEq

/-- `merge_data_detailed(extraction_results)`: run `merge_data`, then total
`_safe_float(r.get("amount", 0))` and `_safe_float(r.get("tax", 0))` over the
normalized records (whose `amount`/`tax` are already floats) and count the
input documents. -/
def merge_data_detailed (extraction_results : List PyVal) (fresh : Nat) :
    AggregationResult × Nat :=
  let res := merge_data extraction_results fresh
  ({ records := res.1
     total_amount := (res.1.map fun r => safeFloat (PyVal.pfloat r.amount)).sum
     total_tax := (res.1.map fun r => safeFloat (PyVal.pfloat r.tax)).sum
     document_count := extraction_results.length },
   res.2)

/-! ## Tabular serializer (`csv_converter.py`) -/

/-- Modelled from the spec: `create_csv` delegates to the external
`pandas.DataFrame(...).to_csv(path, index=False)`, whose code is not part of
this repository; the spec fixes the artifact as "UTF-8 text, comma-separated,
header row `date,vendor,amount,tax,source,record_id`, one row per record, no
trailing metadata".  `create_csv_lines` is that artifact as a list of lines
for a canonical record list (fields joined by commas, floats rendered as
Python renders them). -/
def create_csv_lines (data : List CanonicalRecord) : List String :=
  (",".intercalate CANONICAL_COLUMNS) ::
    data.map (fun r =>
      ",".intercalate
        [r.date, r.vendor, qRepr r.amount, qRepr r.tax, r.source, r.record_id])

/-! ## Basic lemmas -/

theorem pySplitDot_ne_nil (cs : List Char) : pySplitDot cs ≠ [] := by
  induction cs with
  | nil => simp [pySplitDot]
  | cons c rest ih =>
    by_cases h : c = '.'
    · simp [pySplitDot, h]
    · simp only [pySplitDot, h, if_neg]
      cases hh : pySplitDot rest with
      | nil => simp
      | cons p ps => simp

theorem pySplitDot_headD (cs : List Char) :
    (pySplitDot cs).headD [] = cs.takeWhile (fun c => !decide (c = '.')) := by
  induction cs with
  | nil => rfl
  | cons c rest ih =>
    by_cases h : c = '.'
    · subst h
      simp [pySplitDot, List.takeWhile_cons]
    · cases hh : pySplitDot rest with
      | nil => exact absurd hh (pySplitDot_ne_nil rest)
      | cons p ps =>
        rw [hh] at ih
        simp only [List.headD_cons] at ih
        simp [pySplitDot, h, hh, List.takeWhile_cons, ih]

theorem fallback_extract_eq (content filename : String) :
    fallback_extract content filename =
      [("date", PyVal.pstr ""),
       ("vendor", PyVal.pstr (specStem filename)),
       ("amount", PyVal.pint 0),
       ("tax", PyVal.pint 0),
       ("source", PyVal.pstr filename)] := by
  by_cases h : filename = ""
  · subst h; rfl
  · unfold fallback_extract specStem
    rw [if_pos h, if_pos h, pySplitDot_headD]

/-- **C1.** On extraction failure (every failed path of `ai_extract` is the
`none` outcome), `extract_data` returns exactly the fallback record: empty
`date`, `vendor` the document name truncated at its first `'.'` (the whole
name when it has none), zero `amount` and `tax`, and `source` the document
name — for every document name and text, and (being a total function) without
raising. -/
theorem c1_extract_data_fallback (filename content : String) :
    extract_data filename content Option.none =
      [("date", PyVal.pstr ""),
       ("vendor", PyVal.pstr (specStem filename)),
       ("amount", PyVal.pint 0),
       ("tax", PyVal.pint 0),
       ("source", PyVal.pstr filename)] := by
  simpa [extract_data] using fallback_extract_eq content filename

/-- **C10.** `extract_data` keeps a successfully parsed model mapping (with
`source` overwritten) only when the mapping is non-empty: the `if ai_result:`
guard tests dict truthiness, so an empty parsed JSON object is discarded in
favour of the filename-derived fallback record. -/
theorem c10_extract_data_truthiness (filename content : String) :
    extract_data filename content (some []) = fallback_extract content filename ∧
    ∀ d : PyDict, d ≠ [] →
      extract_data filename content (some d) =
        dictSet d "source" (PyVal.pstr filename) := by
  refine ⟨rfl, ?_⟩
  intro d hd
  cases d with
  | nil => exact absurd rfl hd
  | cons p ps => rfl

/-- Witness for C10 at a concrete non-empty parsed mapping. -/
theorem c10_extract_data_truthiness_witness :
    extract_data "doc.txt" "" (some [("date", PyVal.pstr "x")]) =
      [("date", PyVal.pstr "x"), ("source", PyVal.pstr "doc.txt")] := by
  have h := (c10_extract_data_truthiness "doc.txt" "").2
    [("date", PyVal.pstr "x")] (by simp)
  rw [h]
  rfl

/-! ## Flattening: length and order -/

/-- Whether a value is a Python mapping. -/
def isMapping : PyVal → Bool
  | PyVal.pdict _ => true
  | _ => false

/-- The per-item record count of the claim: 1 for a mapping, the number of
mapping elements for a sequence, 0 for anything else. -/
def itemRecordCount : PyVal → Nat
  | PyVal.pdict _ => 1
  | PyVal.plist xs => xs.countP isMapping
  | _ => 0

theorem length_filterMap_isMapping (xs : List PyVal) :
    (xs.filterMap fun v =>
      match v with
      | PyVal.pdict d => some d
      | _ => Option.none).length = xs.countP isMapping := by
  induction xs with
  | nil => rfl
  | cons v vs ih =>
    cases v <;> simp [List.filterMap_cons, List.countP_cons, isMapping, ih]

theorem flatten_records_length (rs : List PyVal) :
    (_flatten_records rs).length = (rs.map itemRecordCount).sum := by
  induction rs with
  | nil => rfl
  | cons v vs ih =>
    cases v <;>
      simp [_flatten_records, itemRecordCount, ih, length_filterMap_isMapping,
        Nat.add_comm]

theorem normalizeAll_length (rs : List PyDict) :
    ∀ n, ((normalizeAll rs n).1).length = rs.length := by
  induction rs with
  | nil => intro n; rfl
  | cons r rs ih => intro n; simp [normalizeAll, ih]

/-- **C2.** The number of records `merge_data` returns is the sum over input
items of: 1 for a mapping, the number of mapping elements for a sequence, 0
for any other item type. -/
theorem c2_merge_data_length (rs : List PyVal) (n : Nat) :
    ((merge_data rs n).1).length = (rs.map itemRecordCount).sum := by
  rw [merge_data, normalizeAll_length, flatten_records_length]

theorem flatten_records_append (a b : List PyVal) :
    _flatten_records (a ++ b) = _flatten_records a ++ _flatten_records b := by
  induction a with
  | nil => rfl
  | cons v vs ih => cases v <;> simp [_flatten_records, ih]

theorem normalizeAll_snd (rs : List PyDict) :
    ∀ n, (normalizeAll rs n).2 = n + rs.length := by
  induction rs with
  | nil => intro n; simp [normalizeAll]
  | cons r rs ih => intro n; simp [normalizeAll, ih]; omega

theorem normalizeAll_append (as bs : List PyDict) :
    ∀ n, (normalizeAll (as ++ bs) n).1 =
      (normalizeAll as n).1 ++ (normalizeAll bs (n + as.length)).1 := by
  induction as with
  | nil => intro n; simp [normalizeAll]
  | cons r rs ih => intro n; simp [normalizeAll, ih]; ring_nf

/-- **C6.** `merge_data` preserves insertion order: the records of an input
prefix precede, unchanged, the records of the rest (first conjunct, with the
uuid counter handed over); and the mixed-shape scenario
`merge([{date: x}, [{date: y}, {date: z}]])` yields exactly three records
with dates `x`, `y`, `z` in that order (second conjunct, for the literal
non-placeholder values of the spec's scenario). -/
theorem c6_merge_data_order :
    (∀ (rs1 rs2 : List PyVal) (n : Nat),
      (merge_data (rs1 ++ rs2) n).1 =
        (merge_data rs1 n).1 ++ (merge_data rs2 ((merge_data rs1 n).2)).1) ∧
    (∀ n : Nat,
      ((merge_data
          [PyVal.pdict [("date", PyVal.pstr "x")],
           PyVal.plist [PyVal.pdict [("date", PyVal.pstr "y")],
                        PyVal.pdict [("date", PyVal.pstr "z")]]] n).1).map
        CanonicalRecord.date = ["x", "y", "z"]) := by
  constructor
  · intro rs1 rs2 n
    rw [merge_data, merge_data, merge_data, flatten_records_append,
      normalizeAll_append, normalizeAll_snd]
  · intro n
    rfl

/-! ## Record-identifier uniqueness -/

theorem uuidString_injective : Function.Injective uuidString := by
  intro a b h
  have hlen := congrArg String.length h
  simp only [uuidString, String.length_append] at hlen
  have ha : (String.mk (List.replicate a '*')).length = a := by
    simp [String.length]
  have hb : (String.mk (List.replicate b '*')).length = b := by
    simp [String.length]
  omega

theorem normalizeAll_record_id_mem (rs : List PyDict) :
    ∀ (n : Nat) (r : CanonicalRecord), r ∈ (normalizeAll rs n).1 →
      ∃ i, i < rs.length ∧ r.record_id = uuidString (n + i) := by
  induction rs with
  | nil => intro n r h; simp [normalizeAll] at h
  | cons x xs ih =>
    intro n r h
    simp only [normalizeAll, List.mem_cons] at h
    rcases h with h | h
    · refine ⟨0, by simp, ?_⟩
      subst h
      simp [_normalize_record]
    · rcases ih (n + 1) r h with ⟨i, hi, hr⟩
      exact ⟨i + 1, by simp only [List.length_cons]; omega,
        by rw [hr]; congr 1; omega⟩

theorem normalizeAll_ids_nodup (rs : List PyDict) :
    ∀ n, (((normalizeAll rs n).1).map CanonicalRecord.record_id).Nodup := by
  induction rs with
  | nil => intro n; simp [normalizeAll]
  | cons x xs ih =>
    intro n
    simp only [normalizeAll, List.map_cons, List.nodup_cons]
    refine ⟨?_, ih (n + 1)⟩
    intro hmem
    rcases List.mem_map.mp hmem with ⟨r, hr, hid⟩
    rcases normalizeAll_record_id_mem xs (n + 1) r hr with ⟨i, _, hi⟩
    rw [hi] at hid
    have := uuidString_injective hid
    simp [_normalize_record] at this
    omega

/-- **C5.** `record_id` values are pairwise distinct within one `merge_data`
batch, and remain pairwise distinct when a second batch is produced with the
token supply where the first call left it (the model of "a fresh
globally-unique token generated once per record and never reused"). -/
theorem c5_record_ids_distinct :
    (∀ (rs : List PyVal) (n : Nat),
      (((merge_data rs n).1).map CanonicalRecord.record_id).Nodup) ∧
    (∀ (rs1 rs2 : List PyVal) (n : Nat),
      ((((merge_data rs1 n).1 ++
         (merge_data rs2 ((merge_data rs1 n).2)).1).map
        CanonicalRecord.record_id)).Nodup) := by
  constructor
  · intro rs n
    exact normalizeAll_ids_nodup _ n
  · intro rs1 rs2 n
    rw [List.map_append, List.nodup_append]
    refine ⟨normalizeAll_ids_nodup _ n, normalizeAll_ids_nodup _ _, ?_⟩
    intro s hs1 hs2
    rcases List.mem_map.mp hs1 with ⟨r1, hr1, hid1⟩
    rcases List.mem_map.mp hs2 with ⟨r2, hr2, hid2⟩
    rcases normalizeAll_record_id_mem _ n r1 hr1 with ⟨i, hi, hidx1⟩
    rcases normalizeAll_record_id_mem _ _ r2 hr2 with ⟨j, hj, hidx2⟩
    rw [merge_data, normalizeAll_snd] at hidx2
    rw [hidx1] at hid1
    rw [hidx2] at hid2
    have := uuidString_injective (hid1.trans hid2.symm)
    omega

/-! ## Placeholder collapse and numeric coercion -/

/-- Spec-side placeholder predicate: the value is null, or a string equal to
"unknown", "n/a" or blank after trimming, case-insensitively. -/
def placeholderVal : PyVal → Prop
  | PyVal.pnone => True
  | PyVal.pstr s => pyLower (pyStrip s) ∈ ["", "unknown", "n/a"]
  | _ => False

theorem placeholder_isAbsent (v : PyVal) (h : placeholderVal v) :
    isAbsent v = true := by
  cases v <;> simp [placeholderVal, isAbsent, pyStr] at h ⊢ <;> exact h

/-- **C3.** A `date` or `vendor` value that is null, or a string equal to
"unknown", "n/a" or blank case-insensitively after trimming, collapses to the
empty string in the canonical record `_normalize_record` produces. -/
theorem c3_placeholder_collapse (d : PyDict) (n : Nat) (v : PyVal) :
    (dictGet d "date" = some v → placeholderVal v →
      (_normalize_record d n).date = "") ∧
    (dictGet d "vendor" = some v → placeholderVal v →
      (_normalize_record d n).vendor = "") := by
  constructor <;> intro h hp <;>
    simp [_normalize_record, h, placeholder_isAbsent v hp, pyStr]

/-- Witness for C3: `"Unknown"` under `date` and `None` under `vendor` (and,
via the theorem at other values, `"N/A"`, `""` and whitespace-only strings)
both collapse to `""`. -/
theorem c3_placeholder_collapse_witness :
    (_normalize_record [("date", PyVal.pstr "Unknown"),
                        ("vendor", PyVal.pnone)] 0).date = "" ∧
    (_normalize_record [("date", PyVal.pstr "  n/A "),
                        ("vendor", PyVal.pstr "   ")] 0).vendor = "" := by
  constructor
  · exact (c3_placeholder_collapse _ 0 (PyVal.pstr "Unknown")).1 rfl
      (by show pyLower (pyStrip "Unknown") ∈ ["", "unknown", "n/a"]; decide)
  · exact (c3_placeholder_collapse _ 0 (PyVal.pstr "   ")).2 rfl
      (by show pyLower (pyStrip "   ") ∈ ["", "unknown", "n/a"]; decide)

/-- **C4.** (code bug) The claim — "normalization never fails; `amount` is
coerced by numeric parse with `0.0` on any failure" — matches the spec's
guarantee and `_safe_float`'s own docstring ("return 0.0 on failure"), but
the code has an uncaught error path: `float(int)` raises `OverflowError`
for integers of magnitude at least `2^1024 - 2^970`, and the `except`
clause catches only `TypeError` and `ValueError`.  At the representable
failing input `{"amount": 2**1024}` the faithful fallible model produces no
record at all instead of the claimed `amount = 0.0` fallback; on
non-overflowing mappings (here `{"amount": "12.5"}`) it agrees with the
total model and yields the claimed `12.5`. -/
theorem c4_normalize_overflow_bug :
    safeFloatChecked (PyVal.pint overflowInputInt) = Option.none ∧
    normalizeRecordChecked [("amount", PyVal.pint overflowInputInt)] 0 =
      Option.none ∧
    normalizeRecordChecked [("amount", PyVal.pstr "12.5")] 0 =
      some (_normalize_record [("amount", PyVal.pstr "12.5")] 0) ∧
    (_normalize_record [("amount", PyVal.pstr "12.5")] 0).amount = 25 / 2 := by
  refine ⟨rfl, rfl, rfl, ?_⟩
  have h2 : (_normalize_record [("amount", PyVal.pstr "12.5")] 0).amount =
      (12 : ℚ) + (5 : ℚ) / (10 : ℚ) ^ (1 : ℕ) := rfl
  rw [h2]
  norm_num

/-! ## Summary view (`merge_data_detailed`) -/

/-- **C7.** `merge_data_detailed` returns exactly the record sequence of
`merge_data` (computing the summary does not alter, reorder, or drop
records); `total_amount`/`total_tax` are the sums of the `amount`/`tax`
fields over the returned records, and `document_count` counts the input
items, not the records. -/
theorem c7_detailed_preserves_records (rs : List PyVal) (n : Nat) :
    (merge_data_detailed rs n).1.records = (merge_data rs n).1 ∧
    (merge_data_detailed rs n).1.total_amount =
      (((merge_data rs n).1).map CanonicalRecord.amount).sum ∧
    (merge_data_detailed rs n).1.total_tax =
      (((merge_data rs n).1).map CanonicalRecord.tax).sum ∧
    (merge_data_detailed rs n).1.document_count = rs.length := by
  refine ⟨rfl, ?_, ?_, rfl⟩ <;> simp [merge_data_detailed, safeFloat]

/-! ## Idempotence of normalization -/

/-- A canonical record, re-embedded as the Python dict `_normalize_record`
actually returns (its six fields in canonical order). -/
def canonToDict (r : CanonicalRecord) : PyDict :=
  [("date", PyVal.pstr r.date),
   ("vendor", PyVal.pstr r.vendor),
   ("amount", PyVal.pfloat r.amount),
   ("tax", PyVal.pfloat r.tax),
   ("source", PyVal.pstr r.source),
   ("record_id", PyVal.pstr r.record_id)]

theorem isAbsent_str_pyStr (v : PyVal) (h : isAbsent v = false) :
    isAbsent (PyVal.pstr (pyStr v)) = false := by
  cases v <;> simpa [isAbsent, pyStr] using h

/-- Collapsing then stringifying is idempotent: feeding a collapsed field
value back through the placeholder check and `str` leaves it unchanged. -/
theorem collapse_idem (w : PyVal) :
    pyStr
      (if isAbsent (PyVal.pstr (pyStr (if isAbsent w then PyVal.pstr "" else w)))
       then PyVal.pstr ""
       else PyVal.pstr (pyStr (if isAbsent w then PyVal.pstr "" else w)))
      = pyStr (if isAbsent w then PyVal.pstr "" else w) := by
  cases hw : isAbsent w
  · have h2 := isAbsent_str_pyStr w hw
    simp only [hw, Bool.false_eq_true, if_false, h2]
    rfl
  · simp only [hw]
    rfl

theorem CanonicalRecord.fieldExt (a b : CanonicalRecord)
    (h1 : a.date = b.date) (h2 : a.vendor = b.vendor)
    (h3 : a.amount = b.amount) (h4 : a.tax = b.tax)
    (h5 : a.source = b.source) (h6 : a.record_id = b.record_id) :
    a = b := by
  cases a; cases b; simp_all

/-- **C8.** Normalizing a record that is already canonical (the dict a
previous `_normalize_record` produced) is the identity on `date`, `vendor`,
`amount`, `tax` and `source`; only `record_id` is freshly generated (and
differs whenever the token supply has moved on). -/
theorem c8_normalize_idempotent (d : PyDict) (n m : Nat) :
    _normalize_record (canonToDict (_normalize_record d n)) m =
      { _normalize_record d n with record_id := uuidString m } ∧
    (n ≠ m →
      (_normalize_record (canonToDict (_normalize_record d n)) m).record_id ≠
        (_normalize_record d n).record_id) := by
  constructor
  · refine CanonicalRecord.fieldExt _ _ ?_ ?_ ?_ ?_ ?_ ?_
    · exact collapse_idem ((dictGet d "date").getD (PyVal.pstr ""))
    · exact collapse_idem ((dictGet d "vendor").getD (PyVal.pstr ""))
    · rfl
    · rfl
    · rfl
    · rfl
  · intro hnm hid
    exact hnm (uuidString_injective hid).symm

/-! ## CSV serialization -/

/-- **C9.** The canonical CSV artifact: for the spec's end-to-end input,
`merge_data` produces exactly one canonical record with the input's values
plus a generated identifier, and its CSV is exactly two lines — the header
`date,vendor,amount,tax,source,record_id` and a data row matching the
record's values; in general the CSV is the header followed by one
comma-joined row per record, in record order, with no trailing metadata
(`1 + n` lines for `n` records). -/
theorem c9_csv_round_trip (n : Nat) :
    (merge_data
      [PyVal.pdict
        [("date", PyVal.pstr "2024-01-15"), ("vendor", PyVal.pstr "ABC Ltd"),
         ("amount", PyVal.pfloat 5000), ("tax", PyVal.pfloat 500),
         ("source", PyVal.pstr "invoice_001.txt")]] n).1 =
      [{ date := "2024-01-15", vendor := "ABC Ltd", amount := 5000,
         tax := 500, source := "invoice_001.txt",
         record_id := uuidString n }] ∧
    create_csv_lines
      [{ date := "2024-01-15", vendor := "ABC Ltd", amount := 5000,
         tax := 500, source := "invoice_001.txt",
         record_id := uuidString n }] =
      ["date,vendor,amount,tax,source,record_id",
       "2024-01-15,ABC Ltd,5000.0,500.0,invoice_001.txt," ++ uuidString n] ∧
    (∀ recs : List CanonicalRecord,
      create_csv_lines recs =
        "date,vendor,amount,tax,source,record_id" ::
          recs.map (fun r =>
            ",".intercalate
              [r.date, r.vendor, qRepr r.amount, qRepr r.tax, r.source,
               r.record_id]) ∧
      (create_csv_lines recs).length = recs.length + 1) := by
  refine ⟨rfl, ?_, fun recs => ⟨rfl, ?_⟩⟩
  · have h1 : create_csv_lines
        [{ date := "2024-01-15", vendor := "ABC Ltd", amount := 5000,
           tax := 500, source := "invoice_001.txt",
           record_id := uuidString n }] =
        [",".intercalate CANONICAL_COLUMNS,
         ",".intercalate
           ["2024-01-15", "ABC Ltd", qRepr 5000, qRepr 500,
            "invoice_001.txt", uuidString n]] := rfl
    have h2 : ",".intercalate CANONICAL_COLUMNS =
        "date,vendor,amount,tax,source,record_id" := rfl
    have h3 : ",".intercalate
        ["2024-01-15", "ABC Ltd", qRepr 5000, qRepr 500, "invoice_001.txt",
         uuidString n] =
        "2024-01-15,ABC Ltd,5000.0,500.0,invoice_001.txt," ++ uuidString n :=
      rfl
    rw [h1, h2, h3]
  · simp [create_csv_lines]

/-- Witness for C8 at a concrete record and distinct token indices. -/
theorem c8_normalize_idempotent_witness :
    _normalize_record (canonToDict (_normalize_record [] 0)) 1 =
      { _normalize_record [] 0 with record_id := uuidString 1 } ∧
    (_normalize_record (canonToDict (_normalize_record [] 0)) 1).record_id ≠
      (_normalize_record [] 0).record_id :=
  ⟨(c8_normalize_idempotent [] 0 1).1,
   (c8_normalize_idempotent [] 0 1).2 (by decide)⟩
